import Mathlib

/-!
Shallow embedding of the committee consensus operator of
`packages/consensus/action.go` (the wasp repository), together with proofs
about its tick loop: `takeAction`, `doLeader`, `doSubordinate`,
`requestBalancesFromNode`, `startProcessing`, `checkQuorum`, `setNewState`.

Modelling conventions:
* Machine time is a logical `Nat` clock; `time.Now().After(d)` becomes
  `d < now` (strict), and the one-second `getBalancesTimeout` is one clock
  unit.
* Go `nil` pointers and `nil` slices/maps become `Option`; dereferencing a
  `none` (a Go nil-pointer panic) makes the embedded function return `none`
  (for `checkQuorum`) or set a `panicked` flag (for whole-tick results).
* Results of calls into code outside the excerpt (`selectRequestsToProcess`,
  `SendMsgToPeers`, BLS aggregation, signature validation) are inputs of the
  embedding, collected in environment records: the excerpt treats them as
  opaque calls whose results drive its control flow.
* Observable actions (network sends, transaction posting, task spawns,
  bookkeeping marks) are recorded in an effect trace, in program order.
-/

namespace Wasp

/-- Observable side effects of one tick, in the order the code performs
them. `markSeen i` is `doSubordinate` setting `processed = true` on the
computation request at position `i`. -/
inductive Effect where
  | balanceFetch : Effect
  | broadcast : Effect
  | spawnExec : Effect
  | postTx : Effect
  | markSeen : Nat → Effect
deriving DecidableEq, Repr

/-- One peer's `signedResult` entry: `(essenceHash, sigShare)`.
Hashes and shares are abstracted to `Nat`; only equality of hashes and the
identity of shares matter to `checkQuorum`. -/
structure SignedResult where
  essenceHash : Nat
  sigShare : Nat
deriving DecidableEq, Repr

/-- A request known to the operator (`op.requests` entries): the optional
inbound message payload (`reqMsg`, `none` until received) and the two
per-peer notification vectors. -/
structure Request where
  reqId : Nat
  reqMsg : Option Nat
  notificationsCurrentState : List Bool
  notificationsNextState : List Bool
deriving DecidableEq, Repr

/-- An entry of `op.currentStateCompRequests` as `doSubordinate` sees it:
the `processed` flag and the referenced request's message pointer. -/
structure CompRequest where
  processed : Bool
  reqMsg : Option Nat
deriving DecidableEq, Repr

/-- The round's `leaderStatus` record. `resultTx` and `finalized` are left
at their Go zero values (`nil`, `false`) by the literal in
`startProcessing`; `signedResults` is a slice of nil-able pointers. -/
structure LeaderStatus where
  reqs : List Request
  batchHash : Nat
  ts : Nat
  signedResults : List (Option SignedResult)
  resultTx : Option Nat
  finalized : Bool
deriving DecidableEq, Repr

/-- The mutable operator fields read or written by the excerpt.
`iAmCurrentLeader` is the result of the rotation predicate (external,
deterministic per state); `balances` is the opaque snapshot (`none` =
not yet fetched); `variableStateIndex` is `op.variableState`'s state index
(`none` when `op.variableState == nil`). -/
structure OperatorState where
  committeeSize : Nat
  ownPeerIndex : Nat
  quorum : Nat
  iAmCurrentLeader : Bool
  balances : Option Nat
  getBalancesDeadline : Nat
  leaderStatus : Option LeaderStatus
  stateTx : Nat
  variableStateIndex : Option Nat
  requests : List Request
  currentStateCompRequests : List CompRequest
  nextStateCompRequests : List CompRequest
deriving DecidableEq, Repr

/-- Results of the external calls `checkQuorum` makes:
`aggregateErr` is whether `op.aggregateSigShares(sigShares)` returned an
error, `signaturesValid` the result of `resultTx.SignaturesValid()`.
Both are BLS operations outside the excerpt. -/
structure QuorumEnv where
  aggregateErr : Bool
  signaturesValid : Bool
deriving DecidableEq, Repr

/-- Results of the external calls `startProcessing` makes:
`selectedReqs` is what `op.selectRequestsToProcess()` returned (a
policy-defined batch, external to the excerpt), `numSucc` and `ts` the
results of `op.committee.SendMsgToPeers`. -/
structure StartEnv where
  selectedReqs : List Request
  numSucc : Nat
  ts : Nat
deriving DecidableEq, Repr

/-- The loop body of `checkQuorum`: walk `signedResults` in order, keeping
the `sigShare` of every entry whose `essenceHash` equals `mainHash`.
Each iteration dereferences the entry with no nil check, so the first
`none` entry is a nil-pointer panic (`none` result). -/
def collectShares (results : List (Option SignedResult)) (mainHash : Nat) :
    Option (List Nat) :=
  match results with
  | [] => some []
  | none :: _ => none
  | some r :: rest =>
      (collectShares rest mainHash).map fun tail =>
        if r.essenceHash = mainHash then r.sigShare :: tail else tail

/-- Embedding of `operator.checkQuorum` (action.go lines 118-150). Returns `none` on a
Go panic (nil `signedResults` entry, or own index out of range); otherwise
`some (state', returnValue, effects)`. The code never assigns
`finalized`, so the state is returned unchanged on every path (the
signature attached to `resultTx` by aggregation is not modelled:
aggregation is external and only its error result drives control flow). -/
def checkQuorum (op : OperatorState) (env : QuorumEnv) :
    Option (OperatorState × Bool × List Effect) :=
  match op.leaderStatus with
  | none => some (op, false, [])
  | some ls =>
    if ls.resultTx = none ∨ ls.finalized then some (op, false, [])
    else
      match ls.signedResults.get? op.ownPeerIndex with
      | none => none
      | some none => none
      | some (some own) =>
        match collectShares ls.signedResults own.essenceHash with
        | none => none
        | some sigShares =>
          if sigShares.length < op.quorum then some (op, false, [])
          else if env.aggregateErr then some (op, false, [])
          else if ¬ env.signaturesValid then some (op, false, [])
          else some (op, true, [Effect.postTx])

/-- The constant `getBalancesTimeout = 1 * time.Second`, in logical clock units. -/
def getBalancesTimeout : Nat := 1

/-- Embedding of `operator.requestBalancesFromNode` (action.go lines 46-52): issue a
fetch only when balances are unknown and `now` is strictly past the
deadline, then move the deadline to `now + getBalancesTimeout`. -/
def requestBalancesFromNode (op : OperatorState) (now : Nat) :
    OperatorState × List Effect :=
  if op.balances = none ∧ op.getBalancesDeadline < now then
    ({ op with getBalancesDeadline := now + getBalancesTimeout },
     [Effect.balanceFetch])
  else (op, [])

/-- Modelled from the spec: `takeIds` (called by `startProcessing`, not in
the excerpt) projects the batch to its ordered request-ID list. -/
def takeIds (reqs : List Request) : List Nat := reqs.map (·.reqId)

/-- Modelled from the spec: `takeMsgs` (called by `startProcessing`, not
in the excerpt) collects the batch's request messages and fails (`ok =
false`) when any is `nil` — the caller's `panic("some req messages are
nil")` documents this contract. -/
def takeMsgs (reqs : List Request) : Option (List Nat) :=
  match reqs with
  | [] => some []
  | r :: rest =>
    match r.reqMsg with
    | none => none
    | some m => (takeMsgs rest).map (m :: ·)

/-- Modelled from the spec: `sctransaction.BatchHash` (not in the excerpt)
is an order-independent commitment to the request-ID set, "hash of the
sorted set of request IDs". -/
def batchHash (ids : List Nat) : Nat :=
  (ids.mergeSort (· ≤ ·)).foldl (fun a b => a * 1000003 + b + 1) 0

/-- Outcome of a call that may end in a Go panic: the state and effect
trace accumulated up to the return or the panic point. -/
structure TickResult where
  newOp : OperatorState
  effects : List Effect
  panicked : Bool
deriving DecidableEq, Repr

/-- Embedding of `operator.startProcessing` (action.go lines 54-116), in source order:
guard on unknown balances; guard on a round already in flight; select a
batch and abort silently when empty; broadcast `StartProcessing` to the
peers; abort when fewer than `quorum()-1` sends succeeded; panic when a
selected request's message is nil; create `leaderStatus`; spawn the
execution task. `env.numSucc < op.quorum - 1` uses truncated `Nat`
subtraction, which agrees with the Go unsigned arithmetic whenever
`1 ≤ op.quorum`. -/
def startProcessing (op : OperatorState) (env : StartEnv) : TickResult :=
  if op.balances = none then ⟨op, [], false⟩
  else if op.leaderStatus.isSome then ⟨op, [], false⟩
  else
    let reqs := env.selectedReqs
    let reqIds := takeIds reqs
    if reqs.length = 0 then ⟨op, [], false⟩
    else
      -- SendMsgToPeers: the broadcast happens here, before any further check
      if env.numSucc < op.quorum - 1 then ⟨op, [Effect.broadcast], false⟩
      else
        match takeMsgs reqs with
        | none => ⟨op, [Effect.broadcast], true⟩
        | some _ =>
          ⟨{ op with
              leaderStatus := some
                { reqs := reqs
                  batchHash := batchHash reqIds
                  ts := env.ts
                  signedResults := List.replicate op.committeeSize none
                  resultTx := none
                  finalized := false } },
           [Effect.broadcast, Effect.spawnExec], false⟩

/-- Embedding of `operator.doSubordinate` (action.go lines 21-32): mark every
not-yet-processed computation request whose message has arrived as
`processed` (the dispatch itself is commented out in the source); the
marks are the observable effects, tagged with the entry's position. -/
def doSubordinate (op : OperatorState) : OperatorState × List Effect :=
  ({ op with
      currentStateCompRequests := op.currentStateCompRequests.map fun cr =>
        if ¬ cr.processed ∧ cr.reqMsg.isSome then
          { cr with processed := true } else cr },
   (op.currentStateCompRequests.enum.filterMap fun p =>
      if ¬ p.2.processed ∧ p.2.reqMsg.isSome then
        some (Effect.markSeen p.1) else none))

/-- The leader-role block of `operator.doLeader` (action.go lines 35-42):
when this node is the current leader, either request balances (if
unknown) or run `startProcessing`; otherwise do nothing. Returns the
state, the effects, and whether a panic occurred. -/
def leaderPhase (op : OperatorState) (now : Nat) (senv : StartEnv) :
    OperatorState × List Effect × Bool :=
  if op.iAmCurrentLeader then
    if op.balances = none then
      let (s, e) := requestBalancesFromNode op now
      (s, e, false)
    else
      let r := startProcessing op senv
      (r.newOp, r.effects, r.panicked)
  else (op, [], false)

/-- Embedding of `operator.doLeader` (action.go lines 34-44): the leader-role block,
then — leader or not — `checkQuorum`, whose boolean result is discarded.
A panic in `startProcessing` or `checkQuorum` propagates (no recover in
the excerpt). -/
def doLeader (op : OperatorState) (now : Nat) (senv : StartEnv)
    (qenv : QuorumEnv) : TickResult :=
  match leaderPhase op now senv with
  | (s₁, e₁, true) => ⟨s₁, e₁, true⟩
  | (s₁, e₁, false) =>
    match checkQuorum s₁ qenv with
    | none => ⟨s₁, e₁, true⟩
    | some (s₂, _, e₂) => ⟨s₂, e₁ ++ e₂, false⟩

/-- Embedding of `operator.takeAction` (action.go lines 16-19): `doLeader` first, then
`doSubordinate`. -/
def takeAction (op : OperatorState) (now : Nat) (senv : StartEnv)
    (qenv : QuorumEnv) : TickResult :=
  let r := doLeader op now senv qenv
  if r.panicked then r
  else
    let (s, e) := doSubordinate r.newOp
    ⟨s, r.effects ++ e, false⟩

/-- Modelled from the spec: `resetLeader` (called by `setNewState`, not in
the excerpt) discards any in-flight `LeaderStatus`, keyed off the new
state transaction's identity; the rotation of the leader flag itself is an
external committee concern and is left untouched here. -/
def resetLeader (op : OperatorState) : OperatorState :=
  { op with leaderStatus := none }

/-- Embedding of `setAllFalse` on a notification vector: zero every slot in place. -/
def setAllFalse (v : List Bool) : List Bool := v.map fun _ => false

/-- The per-request rotation performed by `setNewState`'s loop body
(action.go lines 172-184) on one request, given whether the transition was
sequential and this node's peer index. On a sequential transition the two
vectors are swapped, the (new) next-state vector is zeroed, and — only if
the request's message has arrived — this node's slot is set in both; on a
non-sequential transition both vectors are zeroed outright. -/
def rotateRequest (nextStateTransition : Bool) (peerIndex : Nat)
    (req : Request) : Request :=
  if nextStateTransition then
    let cur := req.notificationsNextState
    let next := setAllFalse req.notificationsCurrentState
    if req.reqMsg.isSome then
      { req with
          notificationsCurrentState := cur.set peerIndex true
          notificationsNextState := next.set peerIndex true }
    else
      { req with
          notificationsCurrentState := cur
          notificationsNextState := next }
  else
    { req with
        notificationsCurrentState := setAllFalse req.notificationsCurrentState
        notificationsNextState := setAllFalse req.notificationsNextState }

/-- Embedding of `operator.setNewState` (action.go lines 153-185): adopt the new state
transaction and snapshot, clear balances, reset the balance deadline to
`now`, compute sequentiality (`new index = old index + 1`, false when no
previous snapshot), reset the leader round, swap the computation-request
lists (truncating the new next list to empty), and rotate every request's
notification vectors. -/
def setNewState (op : OperatorState) (newStateTx : Nat)
    (newVariableStateIndex : Nat) (now : Nat) : OperatorState :=
  let nextStateTransition :=
    match op.variableStateIndex with
    | some k => newVariableStateIndex = k + 1
    | none => false
  let op₁ := resetLeader
    { op with
        stateTx := newStateTx
        balances := none
        getBalancesDeadline := now
        variableStateIndex := some newVariableStateIndex }
  { op₁ with
      currentStateCompRequests := op.nextStateCompRequests
      nextStateCompRequests := []
      requests :=
        op.requests.map (rotateRequest nextStateTransition op.ownPeerIndex) }

/-- Follows the spec's words (§2, claim C5), for comparison with
`takeAction`: "subordinate bookkeeping runs first, then the leader role
runs, then quorum is checked". Same components as `takeAction`, in the
spec's order. -/
def takeActionSpecOrder (op : OperatorState) (now : Nat) (senv : StartEnv)
    (qenv : QuorumEnv) : TickResult :=
  let (s₀, e₀) := doSubordinate op
  match leaderPhase s₀ now senv with
  | (s₁, e₁, true) => ⟨s₁, e₀ ++ e₁, true⟩
  | (s₁, e₁, false) =>
    match checkQuorum s₁ qenv with
    | none => ⟨s₁, e₀ ++ e₁, true⟩
    | some (s₂, _, e₂) => ⟨s₂, e₀ ++ e₁ ++ e₂, false⟩

/-! ### Helper lemmas -/

/-- When every `signedResults` entry is populated, the collection loop
returns exactly the shares of the entries whose hash matches `mainHash`,
in slice order. -/
theorem collectShares_eq_filter (results : List (Option SignedResult))
    (h : Nat) (hall : ∀ r ∈ results, r ≠ none) :
    collectShares results h =
      some (((results.filterMap id).filter
        (fun r => decide (r.essenceHash = h))).map (·.sigShare)) := by
  induction results with
  | nil => rfl
  | cons a rest ih =>
    cases a with
    | none => exact absurd rfl (hall none (by simp))
    | some r =>
      have ih' := ih (fun x hx => hall x (List.mem_cons_of_mem _ hx))
      by_cases hr : r.essenceHash = h <;>
        simp [collectShares, ih', hr, List.filter_cons]

/-- A `nil` entry anywhere in `signedResults` makes the collection loop
panic. -/
theorem collectShares_of_mem_none (results : List (Option SignedResult))
    (h : Nat) (hn : none ∈ results) : collectShares results h = none := by
  induction results with
  | nil => cases hn
  | cons a rest ih =>
    cases a with
    | none => rfl
    | some r =>
      have : none ∈ rest := by
        rcases List.mem_cons.mp hn with h' | h'
        · cases h'
        · exact h'
      simp [collectShares, ih this]

/-- Lemma: `takeMsgs` fails exactly when some request in the batch has a `nil`
message. -/
theorem takeMsgs_eq_none_iff (reqs : List Request) :
    takeMsgs reqs = none ↔ ∃ r ∈ reqs, r.reqMsg = none := by
  induction reqs with
  | nil => simp [takeMsgs]
  | cons a rest ih =>
    cases ha : a.reqMsg with
    | none => simp [takeMsgs, ha]
    | some m =>
      cases hr : takeMsgs rest with
      | none =>
        simp only [takeMsgs, ha, hr, Option.map_none]
        simp [ih.mp hr]
      | some ms =>
        simp only [takeMsgs, ha, hr, Option.map_some]
        constructor
        · intro hcontra; cases hcontra
        · rintro ⟨r, hmem, hnone⟩
          rcases List.mem_cons.mp hmem with rfl | hmem'
          · rw [ha] at hnone; cases hnone
          · exact absurd (ih.mpr ⟨r, hmem', hnone⟩) (by simp [hr])

/-! ### Concrete fixtures

A committee of 4 with quorum 3, own peer index 0, used to exercise the
quorum engine on concrete rounds. -/

/-- A populated signed-result slot with essence hash `h` and share `s`. -/
def slot (h s : Nat) : Option SignedResult := some ⟨h, s⟩

/-- A round where 3 of 4 peers (own slot included) report hash 7 and one
reports hash 9; the result transaction is set and not finalized. -/
def lsQuorum : LeaderStatus :=
  { reqs := []
    batchHash := 0
    ts := 0
    signedResults := [slot 7 10, slot 7 11, slot 7 12, slot 9 13]
    resultTx := some 42
    finalized := false }

/-- Base operator fields for the committee-of-4 fixtures. -/
def opBase : OperatorState :=
  { committeeSize := 4
    ownPeerIndex := 0
    quorum := 3
    iAmCurrentLeader := true
    balances := none
    getBalancesDeadline := 0
    leaderStatus := none
    stateTx := 0
    variableStateIndex := some 10
    requests := []
    currentStateCompRequests := []
    nextStateCompRequests := [] }

/-- Operator holding the quorum-ready round `lsQuorum`. -/
def opQuorum : OperatorState := { opBase with leaderStatus := some lsQuorum }

/-- Aggregation succeeds and the aggregated signature verifies. -/
def envOK : QuorumEnv := ⟨false, true⟩

/-! ### C1 -/

/-- C1: the claim says that on quorum success `checkQuorum` marks
`finalized = true` before returning so the transaction is submitted
exactly once. The code never assigns `finalized`: on the concrete
quorum-ready round it returns `true`, posts the transaction, and returns
the state *unchanged* — `finalized` is still `false`, so the very same
call (which is what the next tick performs on the unchanged state) posts
the transaction again. -/
theorem checkQuorum_no_finalize_bug :
    checkQuorum opQuorum envOK = some (opQuorum, true, [Effect.postTx]) ∧
    (opQuorum.leaderStatus.map fun l => l.finalized) = some false := by
  decide

/-! ### C9 -/

/-- C9: whenever `LeaderStatus` is absent, or its `resultTx` is unset, or
the round is already finalized, `checkQuorum` returns `false` immediately
with no effects and the state unchanged, for every environment (so no
share is read and no aggregation is attempted). -/
theorem checkQuorum_guard_returns_false (op : OperatorState)
    (env : QuorumEnv)
    (h : op.leaderStatus = none ∨
      ∃ ls, op.leaderStatus = some ls ∧
        (ls.resultTx = none ∨ ls.finalized = true)) :
    checkQuorum op env = some (op, false, []) := by
  rcases h with h | ⟨ls, hls, hcond⟩
  · simp [checkQuorum, h]
  · have hc : ls.resultTx = none ∨ ls.finalized := by
      rcases hcond with h1 | h2
      · exact Or.inl h1
      · exact Or.inr (by simp [h2])
    simp [checkQuorum, hls, hc]

/-- C9 witness: an idle operator (no `LeaderStatus`). -/
theorem checkQuorum_guard_returns_false_witness :
    checkQuorum opBase envOK = some (opBase, false, []) :=
  checkQuorum_guard_returns_false opBase envOK (Or.inl rfl)

/-! ### C3 -/

/-- C3: past the guard, with every slot populated, the aggregation set is
exactly the shares of the entries whose `essenceHash` equals this node's
own, in slice order; and when their number is strictly below `quorum()`,
`checkQuorum` returns `false` with no effects and the state unchanged
(no aggregation). -/
theorem checkQuorum_matching_shares (op : OperatorState) (env : QuorumEnv)
    (ls : LeaderStatus) (own : SignedResult)
    (hls : op.leaderStatus = some ls) (htx : ls.resultTx ≠ none)
    (hfin : ls.finalized = false)
    (hown : ls.signedResults[op.ownPeerIndex]? = some (some own))
    (hall : ∀ r ∈ ls.signedResults, r ≠ none) :
    collectShares ls.signedResults own.essenceHash =
      some (((ls.signedResults.filterMap id).filter
        (fun r => decide (r.essenceHash = own.essenceHash))).map
          (·.sigShare)) ∧
    (((ls.signedResults.filterMap id).filter
        (fun r => decide (r.essenceHash = own.essenceHash))).length
          < op.quorum →
      checkQuorum op env = some (op, false, [])) := by
  have hcoll := collectShares_eq_filter ls.signedResults own.essenceHash hall
  refine ⟨hcoll, fun hlt => ?_⟩
  have hc : ¬ (ls.resultTx = none ∨ ls.finalized) := by simp [htx, hfin]
  simp [checkQuorum, hls, hc, hown, hcoll, hlt]

/-- A round with only 1 of 4 slots matching this node's hash (others
populated but different): below quorum 3. -/
def lsBelowQuorum : LeaderStatus :=
  { lsQuorum with signedResults := [slot 7 10, slot 8 11, slot 9 12, slot 5 13] }

/-- Operator holding the below-quorum round. -/
def opBelowQuorum : OperatorState :=
  { opBase with leaderStatus := some lsBelowQuorum }

/-- C3 witness: on the concrete below-quorum round the single matching
share is collected and `checkQuorum` returns `false` without effects. -/
theorem checkQuorum_matching_shares_witness :
    collectShares lsBelowQuorum.signedResults 7 = some [10] ∧
    checkQuorum opBelowQuorum envOK = some (opBelowQuorum, false, []) := by
  have h := checkQuorum_matching_shares opBelowQuorum envOK lsBelowQuorum
    ⟨7, 10⟩ rfl (by decide) rfl (by decide) (by decide)
  exact ⟨by exact h.1, h.2 (by decide)⟩

/-! ### C4 -/

/-- C4: past the guard, `checkQuorum` dereferences every `signedResults`
slot with no nil check, so it runs without a nil-pointer panic exactly
when every one of the `committee.Size()` slots — not merely quorum-many —
has been populated. -/
theorem checkQuorum_panics_iff_missing_slot (op : OperatorState)
    (env : QuorumEnv) (ls : LeaderStatus)
    (hls : op.leaderStatus = some ls) (htx : ls.resultTx ≠ none)
    (hfin : ls.finalized = false)
    (hidx : op.ownPeerIndex < ls.signedResults.length) :
    (checkQuorum op env).isSome ↔ ∀ r ∈ ls.signedResults, r ≠ none := by
  have hc : ¬ (ls.resultTx = none ∨ ls.finalized) := by simp [htx, hfin]
  have hget : ls.signedResults[op.ownPeerIndex]? =
      some ls.signedResults[op.ownPeerIndex] := List.getElem?_eq_getElem hidx
  cases hx : ls.signedResults[op.ownPeerIndex] with
  | none =>
    have hmem : (none : Option SignedResult) ∈ ls.signedResults := by
      rw [← hx]; exact List.getElem_mem hidx
    have hnone : checkQuorum op env = none := by
      simp [checkQuorum, hls, hc, hget, hx]
    exact iff_of_false (by simp [hnone])
      fun hall => absurd rfl (hall none hmem)
  | some own =>
    by_cases hall : ∀ r ∈ ls.signedResults, r ≠ none
    · have hcoll := collectShares_eq_filter ls.signedResults
        own.essenceHash hall
      have hs : (checkQuorum op env).isSome := by
        simp only [checkQuorum, List.get?_eq_getElem?, hls, if_neg hc,
          hget, hx, hcoll]
        split
        · simp
        · split
          · simp
          · split <;> simp
      exact iff_of_true hs hall
    · have hmem : (none : Option SignedResult) ∈ ls.signedResults := by
        push_neg at hall
        obtain ⟨r, hr, hrn⟩ := hall
        exact hrn ▸ hr
      have hcoll := collectShares_of_mem_none ls.signedResults
        own.essenceHash hmem
      have hnone : checkQuorum op env = none := by
        simp [checkQuorum, hls, hc, hget, hx, hcoll]
      exact iff_of_false (by simp [hnone])
        fun h => absurd rfl (h none hmem)

/-- A round whose slot 2 was never populated (as allocated by
`startProcessing`): any tick's `checkQuorum` past the guard panics. -/
def lsMissingSlot : LeaderStatus :=
  { lsQuorum with signedResults := [slot 7 10, slot 7 11, none, slot 7 13] }

/-- Operator holding the partially populated round. -/
def opMissingSlot : OperatorState :=
  { opBase with leaderStatus := some lsMissingSlot }

/-- C4 witness: with slot 2 unpopulated, `checkQuorum` panics (returns
`none`) even though own slot and quorum-many matching slots are set. -/
theorem checkQuorum_panics_iff_missing_slot_witness :
    checkQuorum opMissingSlot envOK = none := by
  have h := checkQuorum_panics_iff_missing_slot opMissingSlot envOK
    lsMissingSlot rfl (by decide) rfl (by decide)
  have h2 : ¬ ∀ r ∈ lsMissingSlot.signedResults, r ≠ none := by decide
  have h3 : ¬ (checkQuorum opMissingSlot envOK).isSome := fun hs => h2 (h.mp hs)
  exact Option.not_isSome_iff_eq_none.mp h3

/-! ### startProcessing fixtures -/

/-- A selected request whose message has arrived. -/
def reqOk : Request :=
  { reqId := 1
    reqMsg := some 11
    notificationsCurrentState := [false, false, false, false]
    notificationsNextState := [false, false, false, false] }

/-- A selected request whose message is still `nil`. -/
def reqNilMsg : Request :=
  { reqOk with reqId := 2, reqMsg := none }

/-- Operator ready to lead: balances known, no round in flight. -/
def opReady : OperatorState := { opBase with balances := some 5 }

/-- Batch of one healthy request; only 1 send succeeded (committee of 4,
quorum 3, so `quorum()-1 = 2` other peers are needed). -/
def envFewSends : StartEnv := ⟨[reqOk], 1, 100⟩

/-- Batch containing a nil-message request; 3 sends succeeded. -/
def envNilMsg : StartEnv := ⟨[reqNilMsg], 3, 100⟩

/-! ### C6 -/

/-- C6: when fewer than `quorum()-1` sends of the `StartProcessing`
broadcast succeed, `startProcessing` returns cleanly with the state
unchanged — no `LeaderStatus` is created and no execution task is
spawned — so the next tick runs a fresh selection. (`1 ≤ quorum` keeps
the truncated `Nat` subtraction in the model aligned with the Go
unsigned arithmetic.) -/
theorem startProcessing_insufficient_sends (op : OperatorState)
    (env : StartEnv) (hb : op.balances ≠ none)
    (hls : op.leaderStatus = none) (hne : env.selectedReqs ≠ [])
    (_hquorum : 1 ≤ op.quorum) (hn : env.numSucc < op.quorum - 1) :
    startProcessing op env = ⟨op, [Effect.broadcast], false⟩ := by
  have h0 : ¬ env.selectedReqs.length = 0 := by
    simpa [List.length_eq_zero] using hne
  simp [startProcessing, hb, hls, h0, hn]

/-- C6 witness: committee of 4, quorum 3, a 1-request batch, only 1
successful send. -/
theorem startProcessing_insufficient_sends_witness :
    startProcessing opReady envFewSends =
      ⟨opReady, [Effect.broadcast], false⟩ :=
  startProcessing_insufficient_sends opReady envFewSends (by decide) rfl
    (by decide) (by decide) (by decide)

/-! ### C10 -/

/-- C10: on every return path of `startProcessing` that creates no
`LeaderStatus` (balances unknown, round in flight, empty selection, too
few sends), the operator state is returned unchanged — every field intact
— no panic occurs and no execution task is spawned; and whenever the
first three guards pass (so the send is reached), the broadcast has
already gone out, `[Effect.broadcast]` being the whole trace. -/
theorem startProcessing_frame (op : OperatorState) (env : StartEnv)
    (h : op.balances = none ∨ op.leaderStatus ≠ none ∨
      env.selectedReqs = [] ∨ env.numSucc < op.quorum - 1) :
    (startProcessing op env).newOp = op ∧
    (startProcessing op env).panicked = false ∧
    Effect.spawnExec ∉ (startProcessing op env).effects ∧
    (op.balances ≠ none → op.leaderStatus = none → env.selectedReqs ≠ [] →
      (startProcessing op env).effects = [Effect.broadcast]) := by
  by_cases hb : op.balances = none
  · simp [startProcessing, hb]
  · by_cases hl : op.leaderStatus.isSome
    · obtain ⟨ls, hls⟩ := Option.isSome_iff_exists.mp hl
      simp [startProcessing, hb, hls]
    · have hlnone : op.leaderStatus = none :=
        Option.not_isSome_iff_eq_none.mp hl
      by_cases h0 : env.selectedReqs.length = 0
      · have hreq : env.selectedReqs = [] := List.length_eq_zero.mp h0
        simp [startProcessing, hb, hlnone, hreq]
      · have hn : env.numSucc < op.quorum - 1 := by
          rcases h with h | h | h | h
          · exact absurd h hb
          · exact absurd hlnone h
          · exact absurd (by simp [h]) h0
          · exact h
        simp [startProcessing, hb, hlnone, h0, hn]

/-- C10 witness: the too-few-sends path on the concrete ready operator. -/
theorem startProcessing_frame_witness :
    (startProcessing opReady envFewSends).newOp = opReady ∧
    (startProcessing opReady envFewSends).panicked = false ∧
    Effect.spawnExec ∉ (startProcessing opReady envFewSends).effects ∧
    (opReady.balances ≠ none → opReady.leaderStatus = none →
      envFewSends.selectedReqs ≠ [] →
      (startProcessing opReady envFewSends).effects = [Effect.broadcast]) :=
  startProcessing_frame opReady envFewSends (Or.inr (Or.inr (Or.inr
    (by decide))))

/-! ### C2 -/

/-- C2 counterexample: with a nil-message request in the selected batch
(and enough successful sends), `startProcessing` has already broadcast
the `StartProcessing` message — the nil check comes after the send — and
then panics instead of returning cleanly, refuting both halves of the
claim on this concrete tick. -/
theorem startProcessing_nil_msg_counterexample :
    (∃ r ∈ envNilMsg.selectedReqs, r.reqMsg = none) ∧
    Effect.broadcast ∈ (startProcessing opReady envNilMsg).effects ∧
    (startProcessing opReady envNilMsg).panicked = true := by decide

/-- C2 amended: when some selected request's message is nil and at least
`quorum()-1` sends succeeded, `startProcessing` broadcasts first (the
trace already holds the send) and then panics — the panic propagates out
of the tick — while still creating no `LeaderStatus` and spawning no
execution task (the returned state is unchanged). -/
theorem startProcessing_nil_msg_panics (op : OperatorState)
    (env : StartEnv) (hb : op.balances ≠ none)
    (hls : op.leaderStatus = none) (hne : env.selectedReqs ≠ [])
    (hnil : ∃ r ∈ env.selectedReqs, r.reqMsg = none)
    (hsucc : ¬ env.numSucc < op.quorum - 1) :
    startProcessing op env = ⟨op, [Effect.broadcast], true⟩ := by
  have h0 : ¬ env.selectedReqs.length = 0 := by
    simpa [List.length_eq_zero] using hne
  have hmsgs : takeMsgs env.selectedReqs = none :=
    (takeMsgs_eq_none_iff _).mpr hnil
  simp [startProcessing, hb, hls, h0, hsucc, hmsgs]

/-- C2 witness: the concrete nil-message batch with 3 successful sends. -/
theorem startProcessing_nil_msg_panics_witness :
    startProcessing opReady envNilMsg = ⟨opReady, [Effect.broadcast], true⟩ :=
  startProcessing_nil_msg_panics opReady envNilMsg (by decide) rfl
    (by decide) (by decide) (by decide)

/-! ### C5 -/

/-- A tick on which all three phases act: balances unknown past the
deadline (leader fetch), a quorum-ready round (`checkQuorum` posts), and
one unmarked computation request (subordinate mark). -/
def opTickOrder : OperatorState :=
  { opBase with
      leaderStatus := some lsQuorum
      currentStateCompRequests := [⟨false, some 3⟩] }

/-- C5 counterexample: on the concrete three-phase tick, `takeAction`
produces the leader fetch, then the quorum post, then the subordinate
mark — the subordinate bookkeeping runs *last*, not first as the claim
states, so `takeAction` differs from the spec-ordered composition of the
same phases. -/
theorem takeAction_order_counterexample :
    (takeAction opTickOrder 5 envFewSends envOK).effects =
      [Effect.balanceFetch, Effect.postTx, Effect.markSeen 0] ∧
    (takeActionSpecOrder opTickOrder 5 envFewSends envOK).effects =
      [Effect.markSeen 0, Effect.balanceFetch, Effect.postTx] ∧
    takeAction opTickOrder 5 envFewSends envOK ≠
      takeActionSpecOrder opTickOrder 5 envFewSends envOK := by decide

/-- C5 amended: on every tick, `takeAction` runs the leader role first
(on the incoming state), checks quorum immediately after it (on the
leader phase's output state, still inside `doLeader`), and runs the
subordinate bookkeeping last, concatenating the effects in that order. -/
theorem takeAction_leader_then_subordinate (op : OperatorState)
    (now : Nat) (senv : StartEnv) (qenv : QuorumEnv)
    (s₁ : OperatorState) (e₁ : List Effect) (s₂ : OperatorState)
    (b : Bool) (e₂ : List Effect)
    (hlp : leaderPhase op now senv = (s₁, e₁, false))
    (hq : checkQuorum s₁ qenv = some (s₂, b, e₂)) :
    takeAction op now senv qenv =
      ⟨(doSubordinate s₂).1, e₁ ++ e₂ ++ (doSubordinate s₂).2, false⟩ := by
  simp [takeAction, doLeader, hlp, hq]

/-- C5 witness: the three-phase tick, instantiated with the concrete
intermediate states. -/
theorem takeAction_leader_then_subordinate_witness :
    takeAction opTickOrder 5 envFewSends envOK =
      ⟨(doSubordinate { opTickOrder with getBalancesDeadline := 6 }).1,
       [Effect.balanceFetch] ++ [Effect.postTx] ++
         (doSubordinate { opTickOrder with getBalancesDeadline := 6 }).2,
       false⟩ :=
  takeAction_leader_then_subordinate opTickOrder 5 envFewSends envOK
    { opTickOrder with getBalancesDeadline := 6 } [Effect.balanceFetch]
    { opTickOrder with getBalancesDeadline := 6 } true [Effect.postTx]
    (by decide) (by decide)

/-! ### C7 -/

/-- A request whose message has arrived, with distinguishable
notification vectors (committee of 4, own index 0). -/
def reqC7 : Request :=
  { reqId := 3
    reqMsg := some 7
    notificationsCurrentState := [true, true, false, true]
    notificationsNextState := [false, true, true, false] }

/-- Operator at variable-state index 5 holding that request. -/
def opC7 : OperatorState :=
  { opBase with variableStateIndex := some 5, requests := [reqC7] }

/-- C7 counterexample: on the non-sequential transition 5 → 10, the
request's message has arrived, yet after `setNewState` this node's own
slot is `false` in both vectors — both are zeroed outright and no
self-marking happens, refuting the claim's "in either case". -/
theorem setNewState_no_self_mark_counterexample :
    reqC7.reqMsg.isSome = true ∧
    ((setNewState opC7 99 10 50).requests.map fun r =>
      (r.notificationsCurrentState, r.notificationsNextState)) =
      [([false, false, false, false], [false, false, false, false])] := by
  decide

/-- C7 amended: on a sequential transition (new index = old index + 1)
each request's next-state vector becomes its current-state vector and
the next-state vector is zeroed, and — only for requests whose message
has arrived — this node's own slot is set in both; on any non-sequential
transition both vectors are zeroed outright with no self-marking. -/
theorem setNewState_rotation (op : OperatorState)
    (newTx newIdx now k : Nat) (hk : op.variableStateIndex = some k) :
    (newIdx = k + 1 →
      (setNewState op newTx newIdx now).requests =
        op.requests.map fun req =>
          if req.reqMsg.isSome then
            { req with
                notificationsCurrentState :=
                  req.notificationsNextState.set op.ownPeerIndex true
                notificationsNextState :=
                  (setAllFalse req.notificationsCurrentState).set
                    op.ownPeerIndex true }
          else
            { req with
                notificationsCurrentState := req.notificationsNextState
                notificationsNextState :=
                  setAllFalse req.notificationsCurrentState }) ∧
    (newIdx ≠ k + 1 →
      (setNewState op newTx newIdx now).requests =
        op.requests.map fun req =>
          { req with
              notificationsCurrentState :=
                setAllFalse req.notificationsCurrentState
              notificationsNextState :=
                setAllFalse req.notificationsNextState }) := by
  constructor
  · intro hseq
    have hd : decide (newIdx = k + 1) = true := decide_eq_true hseq
    simp only [setNewState, hk, hd, resetLeader]
    apply List.map_congr_left
    intro req _
    by_cases hm : req.reqMsg.isSome <;> simp [rotateRequest, hm]
  · intro hseq
    have hd : decide (newIdx = k + 1) = false :=
      decide_eq_false hseq
    simp only [setNewState, hk, hd, resetLeader]
    apply List.map_congr_left
    intro req _
    simp [rotateRequest]

/-- C7 witness: the sequential transition 5 → 6 on the concrete request
rotates the vectors and self-marks slot 0 in both. -/
theorem setNewState_rotation_witness :
    (setNewState opC7 99 6 50).requests =
      [{ reqC7 with
          notificationsCurrentState := [true, true, true, false]
          notificationsNextState := [true, false, false, false] }] := by
  have h := (setNewState_rotation opC7 99 6 50 5 rfl).1 rfl
  rw [h]; decide

/-! ### C8 -/

/-- C8: a fetch is issued exactly when balances are `nil` and the clock
is strictly past `getBalancesDeadline`, and each issue moves the deadline
to `now + getBalancesTimeout`: after a first fetch at `t₀`, a second tick
at `t₁ ≤ t₀ + timeout` issues nothing (one fetch across the two ticks),
while `t₁ > t₀ + timeout` issues a second fetch. -/
theorem requestBalances_throttling (op : OperatorState) (t₀ t₁ : Nat)
    (hb : op.balances = none) (h₀ : op.getBalancesDeadline < t₀) :
    requestBalancesFromNode op t₀ =
      ({ op with getBalancesDeadline := t₀ + getBalancesTimeout },
       [Effect.balanceFetch]) ∧
    (t₁ ≤ t₀ + getBalancesTimeout →
      requestBalancesFromNode
          { op with getBalancesDeadline := t₀ + getBalancesTimeout } t₁ =
        ({ op with getBalancesDeadline := t₀ + getBalancesTimeout }, [])) ∧
    (t₀ + getBalancesTimeout < t₁ →
      requestBalancesFromNode
          { op with getBalancesDeadline := t₀ + getBalancesTimeout } t₁ =
        ({ op with getBalancesDeadline := t₁ + getBalancesTimeout },
         [Effect.balanceFetch])) ∧
    (∀ s : OperatorState, ∀ t : Nat,
      (requestBalancesFromNode s t).2 ≠ [] ↔
        s.balances = none ∧ s.getBalancesDeadline < t) := by
  refine ⟨by simp [requestBalancesFromNode, hb, h₀], fun hle => ?_,
    fun hgt => ?_, fun s t => ?_⟩
  · have : ¬ (t₀ + getBalancesTimeout < t₁) := not_lt.mpr hle
    simp [requestBalancesFromNode, this]
  · simp [requestBalancesFromNode, hb, hgt]
  · unfold requestBalancesFromNode
    split
    · next hcond => exact iff_of_true (by simp) hcond
    · next hcond => exact iff_of_false (by simp) hcond

/-- C8 witness: deadline 0, first balance-unknown tick at time 1, second
at time 2 (within the new deadline): exactly one fetch is issued. -/
theorem requestBalances_throttling_witness :
    requestBalancesFromNode opBase 1 =
      ({ opBase with getBalancesDeadline := 2 }, [Effect.balanceFetch]) ∧
    requestBalancesFromNode { opBase with getBalancesDeadline := 2 } 2 =
      ({ opBase with getBalancesDeadline := 2 }, []) := by
  have h := requestBalances_throttling opBase 1 2 rfl (by decide)
  exact ⟨h.1, h.2.1 (by decide)⟩

end Wasp
